import Mathlib

/-!
Shallow embedding of the broadcast-bus and send/echo-correlation layer of the
rp1210-rs repository (src/bus.rs, src/connection.rs, src/rp1210.rs).

Modelling conventions:

* `PushBus<T>` (bus.rs) is a registry `iters: Vec<PushBusIter<T>>`; each
  `PushBusIter` holds a `VecDeque<T>` and an `AtomicBool` liveness flag.  We
  model the registry as a `List (CursorState T)` and identify a cursor by its
  index in the list (the Rust handle aliases exactly one registry slot, and
  slots are never removed).  The head of `queue` is the front of the deque.
* Wall-clock time is exogenous: an underlying cursor-read sequence is a list
  of pairs `(now, o)` where `o : Option J1939Packet` is the item the bus
  iterator produced (`none` = the idle marker `Some(None)`, `some p` = a
  frame) and `now` is the value `Instant::now()` takes at the moment the
  consumer inspects that item.  The end of the list is the end of the
  underlying iterator (bus closed).  The 1 ms backoff sleep only influences
  which `now` values occur, so it needs no further modelling.
* Machine integers: the RP1210 return code is an `i16` compared against 0 and
  127 only; it is modelled as `Int`.  Payload bytes are `Nat`s.
-/

/-- Modelled from the spec: `J1939Packet` (packet.rs is not under src/).  The
claims use only the payload accessor `data()` plus the fact that a frame also
carries identifying header fields and an adapter timestamp, so the header
fields are collapsed into `id`. -/
structure J1939Packet where
  id : Nat
  data : List Nat
  timestamp : Nat
deriving DecidableEq

/-- bus.rs, `PushBusIter<T>` (lines 35-39): one registered cursor, with its
pending queue (`data: Arc<Mutex<VecDeque<T>>>`) and liveness flag
(`running: Arc<AtomicBool>`). -/
structure CursorState (T : Type) where
  queue : List T
  running : Bool
deriving DecidableEq

/-- bus.rs, `PushBus<T>` (lines 23-26): the registry
`iters: Arc<Mutex<Vec<PushBusIter<T>>>>`; cursors are identified by index. -/
structure PushBusState (T : Type) where
  iters : List (CursorState T)
deriving DecidableEq

/-- bus.rs, `PushBus::new` (lines 28-32): empty registry. -/
def PushBus.new (T : Type) : PushBusState T :=
  ⟨[]⟩

/-- bus.rs, `Bus::iter for PushBus` (lines 60-68): build a fresh
`PushBusIter` with an empty deque and `running = true`, append it to the
registry, and hand it out.  The returned `Nat` is the index of the new
cursor. -/
def PushBus.iter {T : Type} (s : PushBusState T) : PushBusState T × Nat :=
  (⟨s.iters ++ [⟨[], true⟩]⟩, s.iters.length)

/-- bus.rs, `Bus::push for PushBus` (lines 70-76): append a clone of the item
to the back of every registered cursor's deque. -/
def PushBus.push {T : Type} (s : PushBusState T) (x : T) : PushBusState T :=
  ⟨s.iters.map fun c => ⟨c.queue ++ [x], c.running⟩⟩

/-- bus.rs, `Bus::close for PushBus` (lines 82-88): store `false` into every
registered cursor's `running` flag. -/
def PushBus.close {T : Type} (s : PushBusState T) : PushBusState T :=
  ⟨s.iters.map fun c => ⟨c.queue, false⟩⟩

/-- bus.rs, `Iterator::next for PushBusIter` (lines 47-56): if `running` is
false, return `None` (end of stream); otherwise pop the front of the deque
and return `Some(v)` — `Some(None)` is the idle marker (the 1 ms sleep on the
idle path does not change the returned value).  The cursor index is the
handle; an out-of-range index has no Rust counterpart and is a stutter. -/
def PushBusIter.next {T : Type} (s : PushBusState T) (i : Nat) :
    PushBusState T × Option (Option T) :=
  match s.iters[i]? with
  | none => (s, none)
  | some c =>
    if c.running then
      match c.queue with
      | [] => (s, some none)
      | x :: rest => (⟨s.iters.set i ⟨rest, c.running⟩⟩, some (some x))
    else (s, none)

/-- One externally-visible operation on a `PushBus` (push by the producer,
cursor registration, a `next()` call on a cursor, or `close`). -/
inductive BusOp (T : Type) where
  | push (x : T)
  | register
  | read (i : Nat)
  | close
deriving DecidableEq

/-- Run a sequence of bus operations from a state, collecting for every
`read i` the pair `(i, result)` in execution order. -/
def runTrace {T : Type} :
    PushBusState T → List (BusOp T) → PushBusState T × List (Nat × Option (Option T))
  | s, [] => (s, [])
  | s, BusOp.push x :: ops => runTrace (PushBus.push s x) ops
  | s, BusOp.register :: ops => runTrace (PushBus.iter s).1 ops
  | s, BusOp.close :: ops => runTrace (PushBus.close s) ops
  | s, BusOp.read i :: ops =>
    let sr := PushBusIter.next s i
    let rest := runTrace sr.1 ops
    (rest.1, (i, sr.2) :: rest.2)

/-- The frames cursor `i` observed in a collected read log: the payloads of
its successful (`Some(Some _)`) reads, in order.  Idle markers and
end-of-stream results observe nothing. -/
def observedBy {T : Type} (i : Nat) : List (Nat × Option (Option T)) → List T
  | [] => []
  | (j, r) :: rest =>
    match r with
    | some (some x) => if j = i then x :: observedBy i rest else observedBy i rest
    | _ => observedBy i rest

/-- The frames pushed by a sequence of bus operations, in push order. -/
def pushedIn {T : Type} : List (BusOp T) → List T
  | [] => []
  | BusOp.push x :: ops => x :: pushedIn ops
  | _ :: ops => pushedIn ops

/-- The pending queue of cursor `i` (empty for an out-of-range index). -/
def queueOf {T : Type} (s : PushBusState T) (i : Nat) : List T :=
  match s.iters[i]? with
  | some c => c.queue
  | none => []

/-- The bus state reached from a fresh `PushBus` after a sequence of
operations. -/
def busAfter {T : Type} (ops : List (BusOp T)) : PushBusState T :=
  (runTrace (PushBus.new T) ops).1

/-- connection.rs, `Connection::iter_for` (lines 28-34):
`let end = Instant::now() + duration;`
`self.iter().map_while(move |o| if Instant::now() > end { None } else { o })`.
`endTime` is the precomputed `end`; each element of the list is one item `o`
of the underlying `iter()` paired with the value `Instant::now()` has when
the `map_while` closure runs on it.  `map_while` ends the output at the first
`None` the closure returns: that happens when the deadline has passed
(whatever `o` is), and also when `o` itself is the idle marker `None`, since
the closure then returns `o` unchanged. -/
def Connection.iter_for (endTime : Nat) :
    List (Nat × Option J1939Packet) → List J1939Packet
  | [] => []
  | (now, o) :: rest =>
    if now > endTime then []
    else
      match o with
      | none => []
      | some p => p :: Connection.iter_for endTime rest

/-- Modelled from the spec: `MultiQueue::iter_for` — rp1210.rs line 203 calls
`self.bus.iter_for(Duration::from_secs(2))` on `bus: MultiQueue<J1939Packet>`,
and multiqueue.rs is not under src/.  Spec section 4.3: the deadline is
computed once up front; each idle marker re-checks `now() > deadline` and
terminates the sequence if it has passed, otherwise polling continues; a real
frame is yielded unconditionally (the deadline check only gates the idle
path). -/
def MultiQueue.iter_for (endTime : Nat) :
    List (Nat × Option J1939Packet) → List J1939Packet
  | [] => []
  | (now, o) :: rest =>
    match o with
    | some p => p :: MultiQueue.iter_for endTime rest
    | none => if now > endTime then [] else MultiQueue.iter_for endTime rest

/-- rp1210.rs line 206: the predicate of `stream.find(move |p| p.data() == packet.data())`
— payload-byte equality only, no identifier or timestamp comparison. -/
def payloadMatches (payload : List Nat) (p : J1939Packet) : Bool :=
  p.data == payload

/-- rp1210.rs lines 85-91, the error string built by `verify_return`:
`format!("code: {} msg: {}", v, self.get_error(v)?)`, with
`RP1210_GetErrorMsg` abstracted as `getError`. -/
def sendErrorMsg (getError : Int → String) (v : Int) : String :=
  let msg := getError v
  s!"code: {v} msg: {msg}"

/-- rp1210.rs lines 85-91, `API::verify_return`: a raw RP1210 return code
`v < 0 || v > 127` is an error, anything in `0..=127` is success. -/
def verify_return (getError : Int → String) (v : Int) : Except String Int :=
  if v < 0 ∨ v > 127 then Except.error (sendErrorMsg getError v)
  else Except.ok v

/-- The order-relevant actions `Rp1210::send` performs: registering the fresh
bus cursor (evaluating `self.bus.iter_for(..)` on line 203), issuing the raw
write (`self.api.send(packet)`, line 204, i.e. `RP1210_SendMessage` on the
payload bytes), and each read the echo scan consumes from the cursor. -/
inductive SendEvent where
  | registerCursor
  | rawWrite (data : List Nat)
  | cursorRead (item : Option J1939Packet)
deriving DecidableEq

/-- Outcome of `Rp1210::send`: `Ok(echoed packet)`, `Err(transmission error)`,
or the panic the `.unwrap()` on line 206 raises when `find` returns `None`. -/
inductive SendResult where
  | ok (echo : J1939Packet)
  | error (msg : String)
  | panicked
deriving DecidableEq

/-- The echo scan of rp1210.rs line 206,
`stream.find(move |p| p.data() == packet.data())`, run over the underlying
cursor reads: `find` consumes the `iter_for` stream until the first yielded
frame with matching payload, and the stream itself stops at an idle marker
read after the deadline.  Returns the found frame (if any) and the list of
cursor reads consumed, in order. -/
def scanEcho (endTime : Nat) (payload : List Nat) :
    List (Nat × Option J1939Packet) → Option J1939Packet × List SendEvent
  | [] => (none, [])
  | (now, o) :: rest =>
    match o with
    | some p =>
      if payloadMatches payload p then (some p, [SendEvent.cursorRead (some p)])
      else
        let r := scanEcho endTime payload rest
        (r.1, SendEvent.cursorRead (some p) :: r.2)
    | none =>
      if now > endTime then (none, [SendEvent.cursorRead none])
      else
        let r := scanEcho endTime payload rest
        (r.1, SendEvent.cursorRead none :: r.2)

/-- rp1210.rs lines 202-207, `Rp1210::send`:
`let mut stream = self.bus.iter_for(Duration::from_secs(2));` — registering
the fresh cursor — then `let send = self.api.send(packet);` — the raw write,
whose i16 return code is `writeRet` — then
`send.map(|_| stream.find(move |p| p.data() == packet.data()).unwrap())`.
`t0` is the time at which `send` is called, so the scan deadline is
`t0 + 2000` ms; `reads` are the items the fresh cursor produces, paired with
inspection times.  The second component is the trace of bus/driver actions in
execution order. -/
def Rp1210.send (getError : Int → String) (writeRet : Int) (t0 : Nat)
    (reads : List (Nat × Option J1939Packet)) (packet : J1939Packet) :
    SendResult × List SendEvent :=
  match verify_return getError writeRet with
  | Except.error e =>
    (SendResult.error e,
      [SendEvent.registerCursor, SendEvent.rawWrite packet.data])
  | Except.ok _ =>
    let scan := scanEcho (t0 + 2000) packet.data reads
    match scan.1 with
    | some echo =>
      (SendResult.ok echo,
        SendEvent.registerCursor :: SendEvent.rawWrite packet.data :: scan.2)
    | none =>
      (SendResult.panicked,
        SendEvent.registerCursor :: SendEvent.rawWrite packet.data :: scan.2)

lemma length_iters_push {T : Type} (s : PushBusState T) (x : T) :
    (PushBus.push s x).iters.length = s.iters.length := by
  simp [PushBus.push]

lemma length_iters_iter {T : Type} (s : PushBusState T) :
    ((PushBus.iter s).1).iters.length = s.iters.length + 1 := by
  simp [PushBus.iter]

lemma length_iters_close {T : Type} (s : PushBusState T) :
    (PushBus.close s).iters.length = s.iters.length := by
  simp [PushBus.close]

lemma queueOf_push {T : Type} (s : PushBusState T) (x : T) (i : Nat)
    (hi : i < s.iters.length) :
    queueOf (PushBus.push s x) i = queueOf s i ++ [x] := by
  simp [queueOf, PushBus.push, List.getElem?_map, List.getElem?_eq_getElem hi]

lemma queueOf_iter {T : Type} (s : PushBusState T) (i : Nat)
    (hi : i < s.iters.length) :
    queueOf (PushBus.iter s).1 i = queueOf s i := by
  simp [queueOf, PushBus.iter, List.getElem?_append_left hi]

lemma queueOf_close {T : Type} (s : PushBusState T) (i : Nat) :
    queueOf (PushBus.close s) i = queueOf s i := by
  rcases h : s.iters[i]? with _ | c <;>
    simp [queueOf, PushBus.close, List.getElem?_map, h]

/-- FIFO refinement invariant for `PushBus`: over any operation sequence, the
frames a registered cursor observed, followed by its remaining queue, are
exactly its starting queue followed by the frames pushed during the
sequence. -/
lemma runTrace_fifo {T : Type} (ops : List (BusOp T)) :
    ∀ (s : PushBusState T) (i : Nat), i < s.iters.length →
      observedBy i (runTrace s ops).2 ++ queueOf (runTrace s ops).1 i =
        queueOf s i ++ pushedIn ops := by
  induction ops with
  | nil => intro s i _; simp [runTrace, observedBy, pushedIn]
  | cons op ops ih =>
    intro s i hi
    cases op with
    | push x =>
      have hi2 : i < (PushBus.push s x).iters.length := by
        rw [length_iters_push]; exact hi
      show observedBy i (runTrace (PushBus.push s x) ops).2 ++
          queueOf (runTrace (PushBus.push s x) ops).1 i =
          queueOf s i ++ pushedIn (BusOp.push x :: ops)
      rw [ih _ i hi2, queueOf_push s x i hi]
      simp [pushedIn]
    | register =>
      have hi2 : i < ((PushBus.iter s).1).iters.length := by
        rw [length_iters_iter]; omega
      show observedBy i (runTrace (PushBus.iter s).1 ops).2 ++
          queueOf (runTrace (PushBus.iter s).1 ops).1 i =
          queueOf s i ++ pushedIn (BusOp.register :: ops)
      rw [ih _ i hi2, queueOf_iter s i hi]
      rfl
    | close =>
      have hi2 : i < (PushBus.close s).iters.length := by
        rw [length_iters_close]; exact hi
      show observedBy i (runTrace (PushBus.close s) ops).2 ++
          queueOf (runTrace (PushBus.close s) ops).1 i =
          queueOf s i ++ pushedIn (BusOp.close :: ops)
      rw [ih _ i hi2, queueOf_close s i]
      rfl
    | read j =>
      show observedBy i ((j, (PushBusIter.next s j).2) ::
            (runTrace (PushBusIter.next s j).1 ops).2) ++
          queueOf (runTrace (PushBusIter.next s j).1 ops).1 i =
          queueOf s i ++ pushedIn (BusOp.read j :: ops)
      rcases hnext : s.iters[j]? with _ | c
      · have h1 : PushBusIter.next s j = (s, none) := by
          simp [PushBusIter.next, hnext]
        rw [h1]
        simpa [observedBy, pushedIn] using ih s i hi
      · obtain ⟨q, run⟩ := c
        cases run with
        | false =>
          have h1 : PushBusIter.next s j = (s, none) := by
            simp [PushBusIter.next, hnext]
          rw [h1]
          simpa [observedBy, pushedIn] using ih s i hi
        | true =>
          cases q with
          | nil =>
            have h1 : PushBusIter.next s j = (s, some none) := by
              simp [PushBusIter.next, hnext]
            rw [h1]
            simpa [observedBy, pushedIn] using ih s i hi
          | cons x qs =>
            have h1 : PushBusIter.next s j =
                (⟨s.iters.set j ⟨qs, true⟩⟩, some (some x)) := by
              simp [PushBusIter.next, hnext]
            rw [h1]
            have hj : j < s.iters.length :=
              (List.getElem?_eq_some.mp hnext).1
            have hi2 : i < (⟨s.iters.set j ⟨qs, true⟩⟩ : PushBusState T).iters.length := by
              simpa using hi
            by_cases hji : j = i
            · subst hji
              have hq : queueOf s j = x :: qs := by
                simp [queueOf, hnext]
              have hq2 : queueOf (⟨s.iters.set j ⟨qs, true⟩⟩ : PushBusState T) j = qs := by
                simp [queueOf, List.getElem?_set_self, hj]
              have h2 := ih (⟨s.iters.set j ⟨qs, true⟩⟩ : PushBusState T) j hi2
              rw [hq2] at h2
              simp only [observedBy, pushedIn, hq, eq_self_iff_true, if_true,
                List.cons_append]
              rw [h2]
            · have hq2 : queueOf (⟨s.iters.set j ⟨qs, true⟩⟩ : PushBusState T) i = queueOf s i := by
                simp [queueOf, List.getElem?_set_ne hji]
              have h2 := ih (⟨s.iters.set j ⟨qs, true⟩⟩ : PushBusState T) i hi2
              rw [hq2] at h2
              simp only [observedBy, if_neg hji, pushedIn]
              exact h2

/-- `Bus::iter` appends a cursor with an empty queue and `running = true` at
index `s.iters.length`. -/
lemma iter_fresh {T : Type} (s : PushBusState T) :
    ((PushBus.iter s).1).iters[s.iters.length]? = some ⟨[], true⟩ := by
  simp [PushBus.iter, List.getElem?_concat_length]

lemma queueOf_iter_fresh {T : Type} (s : PushBusState T) :
    queueOf (PushBus.iter s).1 s.iters.length = [] := by
  simp [queueOf, iter_fresh s]

/-- Liveness preservation: starting from a state where cursor `c` is live,
any close-free operation sequence keeps `c` live, and every read on `c` in
that sequence returns `Some(_)` (a frame or the idle marker), never the
end-of-stream `None`. -/
lemma runTrace_live {T : Type} (ops : List (BusOp T)) :
    ∀ (s : PushBusState T) (c : Nat) (q : List T),
      s.iters[c]? = some ⟨q, true⟩ → BusOp.close ∉ ops →
      (∀ r ∈ (runTrace s ops).2, r.1 = c → r.2.isSome = true) ∧
      ∃ q2, (runTrace s ops).1.iters[c]? = some ⟨q2, true⟩ := by
  induction ops with
  | nil =>
    intro s c q hc _
    exact ⟨by intro r hr; simp [runTrace] at hr, ⟨q, by simpa [runTrace] using hc⟩⟩
  | cons op ops ih =>
    intro s c q hc hops
    have hop : op ≠ BusOp.close ∧ BusOp.close ∉ ops := by
      constructor
      · intro h; exact hops (by rw [h]; exact List.mem_cons_self _ _)
      · intro h; exact hops (List.mem_cons_of_mem _ h)
    have hclen : c < s.iters.length := (List.getElem?_eq_some.mp hc).1
    cases op with
    | push x =>
      have hc2 : (PushBus.push s x).iters[c]? = some ⟨q ++ [x], true⟩ := by
        simp [PushBus.push, List.getElem?_map, hc]
      exact ih (PushBus.push s x) c (q ++ [x]) hc2 hop.2
    | register =>
      have hc2 : ((PushBus.iter s).1).iters[c]? = some ⟨q, true⟩ := by
        rw [show ((PushBus.iter s).1).iters = s.iters ++ [⟨[], true⟩] from rfl,
          List.getElem?_append_left hclen]
        exact hc
      exact ih (PushBus.iter s).1 c q hc2 hop.2
    | close => exact absurd rfl hop.1
    | read j =>
      show (∀ r ∈ (j, (PushBusIter.next s j).2) ::
            (runTrace (PushBusIter.next s j).1 ops).2, r.1 = c → r.2.isSome = true) ∧
          ∃ q2, (runTrace (PushBusIter.next s j).1 ops).1.iters[c]? = some ⟨q2, true⟩
      by_cases hjc : j = c
      · subst hjc
        cases q with
        | nil =>
          have h1 : PushBusIter.next s j = (s, some none) := by
            simp [PushBusIter.next, hc]
          rw [h1]
          have h2 := ih s j [] hc hop.2
          refine ⟨?_, h2.2⟩
          intro r hr hrc
          rcases List.mem_cons.mp hr with h | h
          · rw [h]; rfl
          · exact h2.1 r h hrc
        | cons x qs =>
          have h1 : PushBusIter.next s j =
              (⟨s.iters.set j ⟨qs, true⟩⟩, some (some x)) := by
            simp [PushBusIter.next, hc]
          rw [h1]
          have hc2 : (⟨s.iters.set j ⟨qs, true⟩⟩ : PushBusState T).iters[j]? =
              some ⟨qs, true⟩ := by
            simp [List.getElem?_set_self, hclen]
          have h2 := ih (⟨s.iters.set j ⟨qs, true⟩⟩ : PushBusState T) j qs hc2 hop.2
          refine ⟨?_, h2.2⟩
          intro r hr hrc
          rcases List.mem_cons.mp hr with h | h
          · rw [h]; rfl
          · exact h2.1 r h hrc
      · have hcons : ∀ (s2 : PushBusState T) (v : Option (Option T)),
            s2.iters[c]? = some ⟨q, true⟩ →
            (∀ r ∈ (j, v) :: (runTrace s2 ops).2, r.1 = c → r.2.isSome = true) ∧
            ∃ q2, (runTrace s2 ops).1.iters[c]? = some ⟨q2, true⟩ := by
          intro s2 v hc2
          have h2 := ih s2 c q hc2 hop.2
          refine ⟨?_, h2.2⟩
          intro r hr hrc
          rcases List.mem_cons.mp hr with h | h
          · exact absurd (by rw [h] at hrc; exact hrc) hjc
          · exact h2.1 r h hrc
        rcases hnext : s.iters[j]? with _ | c2
        · have h1 : PushBusIter.next s j = (s, none) := by
            simp [PushBusIter.next, hnext]
          rw [h1]
          exact hcons s none hc
        · obtain ⟨q2, run2⟩ := c2
          cases run2 with
          | false =>
            have h1 : PushBusIter.next s j = (s, none) := by
              simp [PushBusIter.next, hnext]
            rw [h1]
            exact hcons s none hc
          | true =>
            cases q2 with
            | nil =>
              have h1 : PushBusIter.next s j = (s, some none) := by
                simp [PushBusIter.next, hnext]
              rw [h1]
              exact hcons s (some none) hc
            | cons x qs =>
              have h1 : PushBusIter.next s j =
                  (⟨s.iters.set j ⟨qs, true⟩⟩, some (some x)) := by
                simp [PushBusIter.next, hnext]
              rw [h1]
              refine hcons _ (some (some x)) ?_
              rw [show (⟨s.iters.set j ⟨qs, true⟩⟩ : PushBusState T).iters =
                s.iters.set j ⟨qs, true⟩ from rfl, List.getElem?_set_ne hjc]
              exact hc

lemma close_close {T : Type} (s : PushBusState T) :
    PushBus.close (PushBus.close s) = PushBus.close s := by
  simp [PushBus.close, List.map_map, Function.comp]

/-- C7: `PushBus::push` with zero registered cursors is a no-op: the frame is
dropped, the bus state is unchanged, and therefore every subsequent operation
sequence — including registering new cursors and reading them — behaves
exactly as if the push had never happened, so no later-registered cursor ever
observes the frame. -/
theorem push_without_cursors_is_noop {T : Type} (s : PushBusState T) (x : T)
    (h : s.iters = []) :
    PushBus.push s x = s ∧
    ∀ ops : List (BusOp T), runTrace (PushBus.push s x) ops = runTrace s ops := by
  have h1 : PushBus.push s x = s := by
    obtain ⟨l⟩ := s
    simp only [PushBusState.mk.injEq] at h
    subst h
    simp [PushBus.push]
  exact ⟨h1, fun ops => by rw [h1]⟩

theorem push_without_cursors_is_noop_witness :
    PushBus.push (PushBus.new Nat) 5 = PushBus.new Nat ∧
    runTrace (PushBus.push (PushBus.new Nat) 5) [BusOp.register, BusOp.read 0] =
      runTrace (PushBus.new Nat) [BusOp.register, BusOp.read 0] := by
  have h := push_without_cursors_is_noop (PushBus.new Nat) 5 (by decide)
  exact ⟨h.1, h.2 [BusOp.register, BusOp.read 0]⟩

/-- C8: no-replay and fan-out invariant.  After any history `pre` of bus
operations, `Bus::iter` registers a fresh cursor with an empty queue and live
status (so nothing pushed during `pre` is ever observed by it), and for every
cursor whose queue is empty at that point — the fresh cursor and any other
drained concurrently-registered cursor — the frames it observes during any
subsequent operation sequence `post`, followed by its still-pending queue,
are exactly the frames pushed in `post`, in push order.  In particular all
such cursors observe the same pushed frames in the same relative order, and
any that consume their whole queue observe exactly the same list. -/
theorem bus_no_replay_and_fan_out {T : Type} (pre post : List (BusOp T)) (i : Nat)
    (hi : i < ((PushBus.iter (busAfter pre)).1).iters.length)
    (hq : queueOf ((PushBus.iter (busAfter pre)).1) i = []) :
    ((PushBus.iter (busAfter pre)).1).iters[(busAfter pre).iters.length]? =
      some ⟨[], true⟩ ∧
    observedBy i (runTrace ((PushBus.iter (busAfter pre)).1) post).2 ++
      queueOf (runTrace ((PushBus.iter (busAfter pre)).1) post).1 i = pushedIn post := by
  refine ⟨iter_fresh (busAfter pre), ?_⟩
  have h := runTrace_fifo post ((PushBus.iter (busAfter pre)).1) i hi
  rw [hq] at h
  simpa using h

theorem bus_no_replay_and_fan_out_witness :
    ((PushBus.iter (busAfter (T := Nat) [BusOp.register, BusOp.push 7])).1).iters[
        (busAfter (T := Nat) [BusOp.register, BusOp.push 7]).iters.length]? =
      some ⟨[], true⟩ ∧
    observedBy 1 (runTrace ((PushBus.iter (busAfter (T := Nat)
        [BusOp.register, BusOp.push 7])).1)
        [BusOp.push 9, BusOp.read 1, BusOp.read 1]).2 ++
      queueOf (runTrace ((PushBus.iter (busAfter (T := Nat)
        [BusOp.register, BusOp.push 7])).1)
        [BusOp.push 9, BusOp.read 1, BusOp.read 1]).1 1 =
      pushedIn [BusOp.push (9 : Nat), BusOp.read 1, BusOp.read 1] :=
  bus_no_replay_and_fan_out (T := Nat) [BusOp.register, BusOp.push 7]
    [BusOp.push 9, BusOp.read 1, BusOp.read 1] 1 (by decide) (by decide)

/-- C9: `PushBus::close` clears the liveness flag of every registered cursor
while leaving its queue in place; afterwards every `next()` call on any
cursor returns `None` (end of stream) without touching the state — also on a
cursor whose queue is non-empty at close time; and closing is idempotent:
any positive number of `close` calls leaves the same state as one. -/
theorem bus_close_ends_streams_and_idempotent {T : Type} (s : PushBusState T) :
    (∀ (i : Nat) (c : CursorState T), s.iters[i]? = some c →
      (PushBus.close s).iters[i]? = some (⟨c.queue, false⟩ : CursorState T)) ∧
    (∀ i : Nat, PushBusIter.next (PushBus.close s) i = (PushBus.close s, none)) ∧
    (∀ n : Nat, PushBus.close^[n + 1] s = PushBus.close s) := by
  refine ⟨?_, ?_, ?_⟩
  · intro i c hc
    simp [PushBus.close, List.getElem?_map, hc]
  · intro i
    rcases h0 : s.iters[i]? with _ | c0
    · have hc : (PushBus.close s).iters[i]? = none := by
        simp [PushBus.close, List.getElem?_map, h0]
      simp [PushBusIter.next, hc]
    · have hc : (PushBus.close s).iters[i]? = some (⟨c0.queue, false⟩ : CursorState T) := by
        simp [PushBus.close, List.getElem?_map, h0]
      simp [PushBusIter.next, hc]
  · intro n
    induction n with
    | zero =>
      show PushBus.close^[1] s = PushBus.close s
      rw [Function.iterate_one]
    | succ n ihn =>
      rw [Function.iterate_succ_apply' PushBus.close (n + 1) s, ihn, close_close]

theorem bus_close_ends_streams_and_idempotent_witness :
    (PushBus.close (busAfter (T := Nat) [BusOp.register, BusOp.push 3])).iters[0]? =
      some ⟨[3], false⟩ ∧
    PushBusIter.next (PushBus.close (busAfter (T := Nat)
        [BusOp.register, BusOp.push 3])) 0 =
      (PushBus.close (busAfter (T := Nat) [BusOp.register, BusOp.push 3]), none) ∧
    PushBus.close^[2] (busAfter (T := Nat) [BusOp.register, BusOp.push 3]) =
      PushBus.close (busAfter (T := Nat) [BusOp.register, BusOp.push 3]) := by
  have h := bus_close_ends_streams_and_idempotent
    (busAfter (T := Nat) [BusOp.register, BusOp.push 3])
  exact ⟨h.1 0 ⟨[3], true⟩ (by decide), h.2.1 0, h.2.2 1⟩

/-- C10: a cursor registered by `Bus::iter` after `close()` has been called is
freshly live (its `running` flag is a new `AtomicBool(true)`, its queue
empty), so over any subsequent close-free operation sequence every `next()`
call on it returns `Some(_)` — a pushed frame or the idle marker — and never
the end-of-stream `None`.  Bus closure is thus not a terminal state: it
affects only the cursors registered at the time of the close. -/
theorem iter_after_close_is_live {T : Type} (s : PushBusState T)
    (ops : List (BusOp T)) (hops : BusOp.close ∉ ops) :
    ((PushBus.iter (PushBus.close s)).1).iters[(PushBus.close s).iters.length]? =
      some ⟨[], true⟩ ∧
    ∀ r ∈ (runTrace ((PushBus.iter (PushBus.close s)).1) ops).2,
      r.1 = (PushBus.close s).iters.length → r.2.isSome = true := by
  refine ⟨iter_fresh (PushBus.close s), ?_⟩
  exact (runTrace_live ops ((PushBus.iter (PushBus.close s)).1)
    ((PushBus.close s).iters.length) [] (iter_fresh (PushBus.close s)) hops).1

theorem iter_after_close_is_live_witness :
    ((PushBus.iter (PushBus.close (busAfter (T := Nat) [BusOp.register]))).1).iters[
        (PushBus.close (busAfter (T := Nat) [BusOp.register])).iters.length]? =
      some ⟨[], true⟩ ∧
    ((1 : Nat), (some (some 4) : Option (Option Nat))).2.isSome = true := by
  have h := iter_after_close_is_live (busAfter (T := Nat) [BusOp.register])
    [BusOp.push 4, BusOp.read 1, BusOp.read 1] (by decide)
  exact ⟨h.1, h.2 (1, some (some 4)) (by decide) (by decide)⟩

/-- The echo scan finds exactly what `Iterator::find` finds on the
(spec-modelled) `iter_for` stream: the first yielded frame whose payload
matches. -/
lemma scanEcho_eq_find (endTime : Nat) (payload : List Nat) :
    ∀ reads : List (Nat × Option J1939Packet),
      (scanEcho endTime payload reads).1 =
        (MultiQueue.iter_for endTime reads).find? (payloadMatches payload) := by
  intro reads
  induction reads with
  | nil => rfl
  | cons hd tl ih =>
    obtain ⟨now, o⟩ := hd
    cases o with
    | some p =>
      by_cases hm : payloadMatches payload p
      · simp [scanEcho, MultiQueue.iter_for, List.find?_cons, hm]
      · simp [scanEcho, MultiQueue.iter_for, List.find?_cons, hm, ih]
    | none =>
      by_cases ht : now > endTime
      · simp [scanEcho, MultiQueue.iter_for, ht]
      · simp [scanEcho, MultiQueue.iter_for, ht, ih]

/-- C2 (code bug, connection.rs lines 28-34): the `map_while` closure returns
the underlying item `o` itself whenever the deadline has not yet passed, so
an idle read (`o = None`) terminates `iter_for`'s sequence immediately even
though the deadline is still in the future — the first conjunct shows every
sequence that begins with an idle read is empty, whatever the deadline; the
second evaluates the failing input: deadline 100, an idle read at t = 10,
then a real frame at t = 20, which the claim (and the doc comment on `iter`,
connection.rs line 25: a `Some(None)` item is not the end of the iterator)
says must still be yielded, yet the produced sequence is empty. -/
theorem iter_for_stops_at_idle_before_deadline :
    (∀ (endTime now : Nat) (reads : List (Nat × Option J1939Packet)),
      Connection.iter_for endTime ((now, none) :: reads) = []) ∧
    Connection.iter_for 100 [(10, none), (20, some ⟨1, [1, 2, 3], 0⟩)] = [] := by
  constructor
  · intro endTime now reads
    by_cases h : now > endTime <;> simp [Connection.iter_for, h]
  · rfl

/-- C3 (code bug, connection.rs lines 28-34): the `map_while` closure checks
`Instant::now() > end` before looking at the item, so a real frame read
after the deadline is not yielded — it is turned into `None` and terminates
the sequence.  The first conjunct shows this for every frame read at any
time past the deadline; the second evaluates the failing input: deadline
100, a frame at t = 50 (yielded) and a frame at t = 150, which the claim
says must be yielded unconditionally, yet the sequence drops it and ends. -/
theorem iter_for_drops_frame_after_deadline :
    (∀ (endTime k : Nat) (p : J1939Packet) (reads : List (Nat × Option J1939Packet)),
      Connection.iter_for endTime ((endTime + 1 + k, some p) :: reads) = []) ∧
    Connection.iter_for 100 [(50, some ⟨1, [9], 0⟩), (150, some ⟨2, [7], 0⟩)] =
      [⟨1, [9], 0⟩] := by
  constructor
  · intro endTime k p reads
    have h : endTime + 1 + k > endTime := by omega
    simp [Connection.iter_for, h]
  · rfl

/-- C1 (code bug, rp1210.rs line 206): when the raw write succeeds but no
frame with the outbound payload is observed before the 2-second deadline,
`stream.find(..)` returns `None` and the `.unwrap()` panics — `send` does not
resolve to a timeout `Err` as the claim requires.  Failing input: write
returns 0 (success), the fresh cursor sees only idle reads (t = 1000 and
t = 2500 > deadline 2000), outbound payload `[1, 2, 3]`. -/
theorem send_missing_echo_panics :
    (Rp1210.send (fun _ => "") 0 0 [(1000, none), (2500, none)] ⟨1, [1, 2, 3], 0⟩).1 =
      SendResult.panicked := by
  rfl

/-- C4: `Rp1210::send` evaluates `self.bus.iter_for(..)` — which registers the
fresh bus cursor — strictly before issuing the raw write: in the action trace
of every `send` call, the first event is the cursor registration and the
second is the raw write of the outbound payload. -/
theorem send_registers_cursor_before_raw_write
    (getError : Int → String) (writeRet : Int) (t0 : Nat)
    (reads : List (Nat × Option J1939Packet)) (packet : J1939Packet) :
    ((Rp1210.send getError writeRet t0 reads packet).2).take 2 =
      [SendEvent.registerCursor, SendEvent.rawWrite packet.data] := by
  rcases hv : verify_return getError writeRet with e | v <;>
    rcases hs : (scanEcho (t0 + 2000) packet.data reads).1 with _ | echo <;>
      simp [Rp1210.send, hv, hs]

/-- C5: when the raw write fails (`verify_return` rejects the return code),
`send` returns that transmission error at once: the action trace contains no
cursor read, the result does not depend on what the cursor would have
produced, and the returned `Err` value is a different outcome from both a
matched echo and the missing-echo outcome. -/
theorem send_write_error_returned_immediately
    (getError : Int → String) (writeRet : Int) (t0 : Nat)
    (reads reads2 : List (Nat × Option J1939Packet)) (packet : J1939Packet)
    (h : writeRet < 0 ∨ writeRet > 127) :
    Rp1210.send getError writeRet t0 reads packet =
      (SendResult.error (sendErrorMsg getError writeRet),
        [SendEvent.registerCursor, SendEvent.rawWrite packet.data]) ∧
    Rp1210.send getError writeRet t0 reads packet =
      Rp1210.send getError writeRet t0 reads2 packet ∧
    (∀ p : J1939Packet,
      SendResult.error (sendErrorMsg getError writeRet) ≠ SendResult.ok p) ∧
    SendResult.error (sendErrorMsg getError writeRet) ≠ SendResult.panicked := by
  have hv : verify_return getError writeRet =
      Except.error (sendErrorMsg getError writeRet) := by
    unfold verify_return
    rw [if_pos h]
  refine ⟨by simp [Rp1210.send, hv], by simp [Rp1210.send, hv], ?_, ?_⟩
  · intro p hcon
    cases hcon
  · intro hcon
    cases hcon

theorem send_write_error_returned_immediately_witness :
    Rp1210.send (fun _ => "bus fault") (-1) 0 [(5, none)] ⟨1, [2, 3], 0⟩ =
      (SendResult.error (sendErrorMsg (fun _ => "bus fault") (-1)),
        [SendEvent.registerCursor, SendEvent.rawWrite [2, 3]]) ∧
    Rp1210.send (fun _ => "bus fault") (-1) 0 [(5, none)] ⟨1, [2, 3], 0⟩ =
      Rp1210.send (fun _ => "bus fault") (-1) 0 [] ⟨1, [2, 3], 0⟩ ∧
    (∀ p : J1939Packet,
      SendResult.error (sendErrorMsg (fun _ => "bus fault") (-1)) ≠ SendResult.ok p) ∧
    SendResult.error (sendErrorMsg (fun _ => "bus fault") (-1)) ≠ SendResult.panicked :=
  send_write_error_returned_immediately (fun _ => "bus fault") (-1) 0 [(5, none)] []
    ⟨1, [2, 3], 0⟩ (by decide)

/-- C6 (the bus `iter_for` is spec-modelled, multiqueue.rs being absent from
src/): when the raw write succeeds, `send` scans the fresh cursor under the
hard-coded `t0 + 2000` ms deadline and returns `Ok` of the first frame of
the stream whose payload bytes equal the outbound payload — the predicate is
`payloadMatches`, payload equality only — and the returned frame is the
echoed stream element itself, which may differ from the caller's packet in
every other field (see the witness, where the echo differs in identifier and
timestamp). -/
theorem send_returns_first_matching_echo
    (getError : Int → String) (writeRet : Int) (t0 : Nat)
    (reads : List (Nat × Option J1939Packet)) (packet echo : J1939Packet)
    (hok : 0 ≤ writeRet ∧ writeRet ≤ 127)
    (hfind : (MultiQueue.iter_for (t0 + 2000) reads).find? (payloadMatches packet.data) =
      some echo) :
    (Rp1210.send getError writeRet t0 reads packet).1 = SendResult.ok echo ∧
    echo ∈ MultiQueue.iter_for (t0 + 2000) reads ∧
    echo.data = packet.data := by
  obtain ⟨h1, h2⟩ := hok
  have hv : verify_return getError writeRet = Except.ok writeRet := by
    unfold verify_return
    rw [if_neg (by omega : ¬(writeRet < 0 ∨ writeRet > 127))]
  have hscan : (scanEcho (t0 + 2000) packet.data reads).1 = some echo := by
    rw [scanEcho_eq_find]
    exact hfind
  refine ⟨by simp [Rp1210.send, hv, hscan], List.mem_of_find?_eq_some hfind, ?_⟩
  have hp := List.find?_some hfind
  simpa [payloadMatches] using hp

theorem send_returns_first_matching_echo_witness :
    (Rp1210.send (fun _ => "") 0 0 [(10, none), (20, some ⟨99, [1, 2], 5⟩)]
        ⟨1, [1, 2], 0⟩).1 = SendResult.ok ⟨99, [1, 2], 5⟩ ∧
    (⟨99, [1, 2], 5⟩ : J1939Packet) ∈
      MultiQueue.iter_for (0 + 2000) [(10, none), (20, some ⟨99, [1, 2], 5⟩)] ∧
    (⟨99, [1, 2], 5⟩ : J1939Packet).data = (⟨1, [1, 2], 0⟩ : J1939Packet).data :=
  send_returns_first_matching_echo (fun _ => "") 0 0
    [(10, none), (20, some ⟨99, [1, 2], 5⟩)] ⟨1, [1, 2], 0⟩ ⟨99, [1, 2], 5⟩
    (by decide) (by decide)
